import Mathlib

/-!
Verification of the append-reconciliation engine of `utils/sheets.py` /
`utils/scraping.py` (two near-duplicate copies of the same module).

The backend worksheet is modelled as a header row plus a list of data rows.
A cell is `Option String`: `some s` is an ordinary string cell, `none` models
a pandas `NaN` value (a record that lacks a field which other records of the
same batch do have produces `NaN` in the corresponding `DataFrame` column,
and `sheets.py`'s index-aligned column assignments can introduce `NaN` as
well).  Reading a cell back through the backend yields a plain string;
missing/NaN cells read as the empty string.

Python library calls are embedded as executable Lean functions:
`str.strip`, `str.lower`, `str.replace` (all the replacements performed by
`_norm` are single-character, so they fuse into one character map),
`datetime.strptime(_, "%Y-%m-%d")` (4-digit year, 1-2 digit month and day,
calendar validation including leap years, as CPython's `_strptime` does) and
`strftime("%B")` under the default C locale (English month names).
-/

/-- A worksheet cell.  `none` models a pandas `NaN`. -/
abbrev Celda := Option String

/-- Reading a cell through `gspread` (`col_values`): NaN/missing reads as `""`. -/
def cellStr (c : Celda) : String := c.getD ""

/-- An incoming record (`resultados` element): producer field name to value. -/
abbrev Registro := List (String × String)

/-- Python `dict.get` / pandas row lookup: first binding of the key, if any. -/
def getField? (r : Registro) (k : String) : Option String :=
  (r.find? (fun p => p.1 == k)).map (fun p => p.2)

/-- `pd.DataFrame(resultados)` has column `k` iff some record carries field `k`. -/
def columnExists (rs : List Registro) (k : String) : Bool :=
  rs.any (fun r => (getField? r k).isSome)

/-- Python `str.strip` on the character list: drop whitespace on both ends. -/
def pyStripL (l : List Char) : List Char :=
  ((l.dropWhile Char.isWhitespace).reverse.dropWhile Char.isWhitespace).reverse

/-- Python `str.strip`. -/
def pyStrip (s : String) : String := String.mk (pyStripL s.data)

/-- Python `str.lower`, restricted to the alphabet appearing in headers and
aliases: ASCII letters plus the accented letters that `_norm` folds. -/
def pyLowerChar (c : Char) : Char :=
  if c = 'Á' then 'á' else if c = 'É' then 'é' else if c = 'Í' then 'í'
  else if c = 'Ó' then 'ó' else if c = 'Ú' then 'ú' else if c = 'Ñ' then 'ñ'
  else c.toLower

/-- The accent folds of `_norm` (sheets.py line 43-45): á→a é→e í→i ó→o ú→u ñ→n. -/
def foldAccent (c : Char) : Char :=
  if c = 'á' then 'a' else if c = 'é' then 'e' else if c = 'í' then 'i'
  else if c = 'ó' then 'o' else if c = 'ú' then 'u' else if c = 'ñ' then 'n'
  else c

/-- `_norm` (sheets.py lines 42-45): strip, lowercase, fold accents, drop `°`.
All of the Python `str.replace` calls are single-character replacements, so
the chain fuses into a map followed by a filter. -/
def normaliza (s : String) : String :=
  String.mk ((((pyStripL s.data).map pyLowerChar).map foldAccent).filter
    (fun c => c ≠ '°'))

/-- Inner loop of `_find_header_idx`: index of the first header whose
normalized form equals the (already normalized) candidate. -/
def idxOfNorm (target : String) : List String → Option Nat
  | [] => none
  | h :: hs =>
    if normaliza h = target then some 0 else (idxOfNorm target hs).map (· + 1)

/-- `_find_header_idx` (sheets.py lines 47-54): first candidate alias that
matches some header wins; returns the index of the first matching header. -/
def findHeaderIdx (headers : List String) : List String → Option Nat
  | [] => none
  | c :: cs =>
    match idxOfNorm (normaliza c) headers with
    | some i => some i
    | none => findHeaderIdx headers cs

/-- `_asegurar_encabezados` (sheets.py lines 56-67), as a pure function from
the current header row to the reconciled header row plus a flag recording
whether the header was written back. -/
def asegurarEncabezados (headers esperados : List String) : List String × Bool :=
  if headers = [] then (esperados, true)
  else if esperados.filter (fun h => !(headers.contains h)) = [] then (headers, false)
  else (headers ++ esperados.filter (fun h => !(headers.contains h)), true)

/-- Aliases accepted for the sequence column (sheets.py line 70). -/
def numeroAliases : List String := ["Número", "Numero", "N°", "Nro", "#", "Num", "No."]

/-- Aliases accepted for the identifier column (sheets.py line 87). -/
def idAliases : List String := ["ID", "Id", "id"]

/-- Value of a nonempty digit string, as Python `int` computes it. -/
def digitsVal (l : List Char) : Nat :=
  l.foldl (fun n c => n * 10 + (c.toNat - 48)) 0

/-- The per-cell parse of `_ultimo_numero` (sheets.py lines 76-83): strip the
cell, keep the digit characters, parse them, keep only positive values. -/
def parseSeq (v : String) : Option Nat :=
  let digits := (pyStripL v.data).filter Char.isDigit
  if digits.isEmpty then none
  else if 0 < digitsVal digits then some (digitsVal digits) else none

/-- The spec's wording of the per-cell parse: strip non-digit characters,
parse the remaining digit run as an integer, discard non-positive or
unparseable results. -/
def specCellValue (v : String) : Option Nat :=
  let digits := v.data.filter Char.isDigit
  if digits.isEmpty then none
  else if 0 < digitsVal digits then some (digitsVal digits) else none

/-- Python `max(nums) if nums else 0`. -/
def pyMax : List Nat → Nat
  | [] => 0
  | n :: ns => ns.foldl max n

/-- `hoja.col_values(idx+1)[1:]`: the values of data column `idx` (0-based),
one string per data row; rows short of the column read as `""`. -/
def colValues (rows : List (List Celda)) (idx : Nat) : List String :=
  rows.map (fun r => cellStr (r.getD idx none))

/-- `_ultimo_numero` (sheets.py lines 69-84) over the reconciled header and
the data rows. -/
def ultimoNumero (headers : List String) (rows : List (List Celda)) : Nat :=
  match findHeaderIdx headers numeroAliases with
  | none => 0
  | some idx => pyMax ((colValues rows idx).filterMap parseSeq)

/-- The spec's wording of sequence recovery: the maximum over the cells of
the valid parsed values, or 0 when the column is absent or no cell is valid. -/
def specUltimo (headers : List String) (rows : List (List Celda)) : Nat :=
  match findHeaderIdx headers numeroAliases with
  | none => 0
  | some idx => ((colValues rows idx).filterMap specCellValue).foldr max 0

/-- `_ids_existentes` (sheets.py lines 86-91): trimmed, non-empty values of
the identifier column (Python builds a set; a list with the same membership
is used here, consumed only through `contains`). -/
def idsExistentes (headers : List String) (rows : List (List Celda)) : List String :=
  match findHeaderIdx headers idAliases with
  | none => []
  | some idx => ((colValues rows idx).map pyStrip).filter (fun v => v ≠ "")

/-! ## Date handling

`datetime.strptime(fecha_objetivo, "%Y-%m-%d")` followed by
`.strftime("%B").capitalize()` (sheets.py line 106).  CPython's `_strptime`
matches `%Y` against exactly four digits and `%m`/`%d` against one or two
digits, then `datetime` validates the ranges (month 1-12, day within the
month, year at least 1); `%B` produces the English month name under the
default C locale. -/

/-- Python `str.split("-")` at the character level. -/
def splitDash : List Char → List (List Char)
  | [] => [[]]
  | c :: rest =>
    let r := splitDash rest
    if c = '-' then [] :: r
    else
      match r with
      | [] => [[c]]
      | p :: ps => (c :: p) :: ps

/-- Gregorian leap year, as `datetime` validates day ranges. -/
def isLeap (y : Nat) : Bool := (y % 4 == 0 && y % 100 != 0) || y % 400 == 0

/-- Days in a month, for `datetime`'s day-of-month validation. -/
def daysInMonth (y m : Nat) : Nat :=
  if m = 2 then (if isLeap y then 29 else 28)
  else if m = 4 ∨ m = 6 ∨ m = 9 ∨ m = 11 then 30 else 31

/-- One numeric field of the date pattern: nonempty, all digits. -/
def parseNatPiece (p : List Char) : Option Nat :=
  if !p.isEmpty && p.all Char.isDigit then some (digitsVal p) else none

/-- `datetime.strptime(s, "%Y-%m-%d")`, returning the (year, month, day) on
success and `none` where Python raises `ValueError`. -/
def parseYMD (s : String) : Option (Nat × Nat × Nat) :=
  match splitDash s.data with
  | [ys, ms, ds] =>
    match parseNatPiece ys, parseNatPiece ms, parseNatPiece ds with
    | some y, some m, some d =>
      if ys.length = 4 && (ms.length = 1 || ms.length = 2)
          && (ds.length = 1 || ds.length = 2)
          && 1 ≤ y && 1 ≤ m && m ≤ 12 && 1 ≤ d && d ≤ daysInMonth y m
      then some (y, m, d) else none
    | _, _, _ => none
  | _ => none

/-- `strftime("%B")` under the C locale: English month names. -/
def monthName (m : Nat) : String :=
  ["January", "February", "March", "April", "May", "June", "July", "August",
   "September", "October", "November", "December"].getD (m - 1) ""

/-- Python `str.capitalize`: first character uppercased, rest lowercased. -/
def pyCapitalize (s : String) : String :=
  match s.data with
  | [] => ""
  | c :: cs => String.mk (c.toUpper :: cs.map Char.toLower)

/-- The partition (worksheet tab) name derived from the target date:
`datetime.strptime(fecha, "%Y-%m-%d").strftime("%B").capitalize()`. -/
def mesDe (fecha : String) : Option String :=
  (parseYMD fecha).map (fun t => pyCapitalize (monthName t.2.1))

/-! ## The worksheet model and `guardar_en_hoja` -/

/-- A worksheet: the header row (`row_values(1)`) and the data rows below it. -/
structure Hoja where
  header : List String
  rows : List (List Celda)
  deriving DecidableEq, Repr

/-- The spreadsheet: worksheet tabs keyed by title, in tab order. -/
abbrev Libro := List (String × Hoja)

/-- `sheet.worksheet(title)`: the first tab with the given title. -/
def findTab : Libro → String → Option Hoja
  | [], _ => none
  | (k, sh) :: rest, n => if k = n then some sh else findTab rest n

/-- Writing a tab back: replace the first tab with the title, or, when absent,
`add_worksheet` appends a fresh tab at the end. -/
def setTab : Libro → String → Hoja → Libro
  | [], n, sh => [(n, sh)]
  | (k, s) :: rest, n, sh =>
    if k = n then (k, sh) :: rest else (k, s) :: setTab rest n sh

/-- The canonical column list `columnas_ordenadas` (sheets.py lines 109-113). -/
def columnasOrdenadas : List String :=
  ["Número", "FyH Extracción", "FyH Publicación", "ID", "Título",
   "Descripción", "Tipo", "Monto", "Tipo Monto",
   "LINK FICHA", "FyH TERRENO", "OBLIG?", "FyH CIERRE"]

/-- The producer field feeding each canonical column after `Número`
(sheets.py lines 142-153). -/
def producerFields : List String :=
  ["fecha_extraccion", "fecha_publicacion", "id", "titulo", "descripcion",
   "tipo", "monto", "tipo_monto", "link_ficha", "fecha_visita",
   "visita_obligatoria", "fecha_cierre"]

/-- The tab the invocation works on: the existing tab of that title, or the
tab freshly created with the canonical header (sheets.py lines 118-122). -/
def tabDe (ss : Libro) (mes : String) : Hoja :=
  (findTab ss mes).getD { header := columnasOrdenadas, rows := [] }

/-- The header row after reconciliation (sheets.py line 125). -/
def reconHeaders (ss : Libro) (mes : String) : List String :=
  (asegurarEncabezados (tabDe ss mes).header columnasOrdenadas).1

/-- `ids_guardados` of the invocation (sheets.py line 129). -/
def idsGuardados (ss : Libro) (mes : String) : List String :=
  idsExistentes (reconHeaders ss mes) (tabDe ss mes).rows

/-- `ultimo` of the invocation (sheets.py line 128). -/
def ultimoDe (ss : Libro) (mes : String) : Nat :=
  ultimoNumero (reconHeaders ss mes) (tabDe ss mes).rows

/-- The dedup filter (sheets.py lines 132-133): when the incoming frame has an
`id` column, a row survives iff its `id` is not among the stored identifiers;
a row whose `id` cell is NaN survives (`NaN.isin(...)` is false). -/
def keepRecord (ids : List String) (dedup : Bool) (r : Registro) : Bool :=
  if dedup then
    match getField? r "id" with
    | some v => !(ids.contains v)
    | none => true
  else true

/-- Original indices (pandas index labels) of the records surviving the dedup
filter `df = df[~df["id"].isin(ids_guardados)]`. -/
def survivorLabels (rs : List Registro) (ids : List String) : List Nat :=
  (List.range rs.length).filter
    (fun i => keepRecord ids (columnExists rs "id") (rs.getD i []))

/-- One cell of `df_out` (sheets.py lines 142-153): `df_out[col] = df.get(f, "")`.
`df_out` has a fresh `RangeIndex`, while the filtered `df` kept its original
index labels, so pandas realigns the assigned Series by label: position `i`
receives the value of *original* record `i` when label `i` survived the
filter, and NaN otherwise.  A column absent from the incoming records
broadcasts the scalar default `""`. -/
def alignedCell (rs : List Registro) (labels : List Nat) (f : String) (i : Nat) : Celda :=
  if columnExists rs f then
    if labels.contains i then getField? (rs.getD i []) f else none
  else some ""

/-- Row `i` of `df_out.values.tolist()` (sheets.py lines 140-159): the
sequence number `ultimo + 1 + i` (assigned positionally from `range`, hence
exempt from index alignment) followed by the twelve mapped columns in
canonical order. -/
def buildRowSheets (rs : List Registro) (labels : List Nat) (ultimo i : Nat) :
    List Celda :=
  some (toString (ultimo + 1 + i)) :: producerFields.map (fun f => alignedCell rs labels f i)

/-- The batch handed to `append_rows` (sheets.py line 162). -/
def nuevasFilas (rs : List Registro) (labels : List Nat) (ultimo : Nat) :
    List (List Celda) :=
  (List.range labels.length).map (buildRowSheets rs labels ultimo)

/-- The sequence-number column of a row batch. -/
def numerosAsignados (rows : List (List Celda)) : List Celda :=
  rows.map (fun r => r.getD 0 none)

/-- The outcome of one `guardar_en_hoja` invocation. -/
inductive Resultado where
  /-- Early return: `resultados` was empty (sheets.py lines 102-104). -/
  | nada : Resultado
  /-- `datetime.strptime` raised `ValueError` (sheets.py line 106). -/
  | fechaInvalida : Resultado
  /-- The filtered frame was empty: nothing new to add (sheets.py lines 135-137). -/
  | sinNuevas : Resultado
  /-- `k` new rows were appended (sheets.py line 162). -/
  | guardadas (k : Nat) : Resultado
  deriving DecidableEq, Repr

/-- The body of `guardar_en_hoja` after the partition name is resolved
(sheets.py lines 107-162).  `df.empty` holds when the filtered frame has no
rows or the incoming records carry no fields at all (zero columns). -/
def guardarAux (rs : List Registro) (mes : String) (ss : Libro) :
    Resultado × Libro :=
  if (survivorLabels rs (idsGuardados ss mes)).isEmpty
      || rs.all (fun r => r.isEmpty) then
    (Resultado.sinNuevas,
     setTab ss mes { header := reconHeaders ss mes, rows := (tabDe ss mes).rows })
  else
    (Resultado.guardadas (survivorLabels rs (idsGuardados ss mes)).length,
     setTab ss mes
       { header := reconHeaders ss mes,
         rows := (tabDe ss mes).rows ++
           nuevasFilas rs (survivorLabels rs (idsGuardados ss mes)) (ultimoDe ss mes) })

/-- `guardar_en_hoja` (sheets.py lines 94-169): empty input returns at once,
then the target date is parsed, the month tab is opened or created, headers
are reconciled, the new records are deduplicated, numbered and appended. -/
def guardarEnHoja (rs : List Registro) (fecha : String) (ss : Libro) :
    Resultado × Libro :=
  if rs.isEmpty then (Resultado.nada, ss)
  else
    match parseYMD fecha with
    | none => (Resultado.fechaInvalida, ss)
    | some (_, m, _) => guardarAux rs (pyCapitalize (monthName m)) ss

/-! ## Helper lemmas -/

theorem whitespace_not_digit (c : Char) (h : c.isWhitespace = true) :
    c.isDigit = false := by
  simp only [Char.isWhitespace, Bool.or_eq_true, decide_eq_true_eq] at h
  rcases h with ((h | h) | h) | h <;> subst h <;> decide

theorem filter_dropWhile_of_imp (p q : α → Bool)
    (hpq : ∀ a, q a = true → p a = false) (l : List α) :
    (l.dropWhile q).filter p = l.filter p := by
  induction l with
  | nil => rfl
  | cons a l ih =>
    by_cases hq : q a = true
    · rw [List.dropWhile_cons_of_pos hq, ih, List.filter_cons_of_neg]
      simp [hpq a hq]
    · rw [List.dropWhile_cons_of_neg hq]

theorem filter_pyStripL (p : Char → Bool)
    (hp : ∀ c, c.isWhitespace = true → p c = false) (l : List Char) :
    (pyStripL l).filter p = l.filter p := by
  unfold pyStripL
  rw [List.filter_reverse, filter_dropWhile_of_imp p Char.isWhitespace hp,
    List.filter_reverse, List.reverse_reverse,
    filter_dropWhile_of_imp p Char.isWhitespace hp]

theorem parseSeq_eq_spec (v : String) : parseSeq v = specCellValue v := by
  unfold parseSeq specCellValue
  rw [filter_pyStripL Char.isDigit whitespace_not_digit]

theorem foldl_max_eq (ns : List Nat) (n : Nat) :
    ns.foldl max n = max n (ns.foldr max 0) := by
  induction ns generalizing n with
  | nil => simp
  | cons m ms ih =>
    simp only [List.foldl_cons, List.foldr_cons, ih (max n m), Nat.max_assoc]

theorem pyMax_eq_foldr (l : List Nat) : pyMax l = l.foldr max 0 := by
  cases l with
  | nil => rfl
  | cons n ns => simp only [pyMax, List.foldr_cons, foldl_max_eq]

theorem contains_mem_iff {α} [BEq α] [LawfulBEq α] {l : List α} {a : α} :
    l.contains a = true ↔ a ∈ l :=
  List.elem_iff

theorem asegurar_formula (headers esperados : List String) (hne : headers ≠ []) :
    asegurarEncabezados headers esperados =
      (headers ++ esperados.filter (fun h => !(headers.contains h)),
       !(esperados.filter (fun h => !(headers.contains h))).isEmpty) := by
  unfold asegurarEncabezados
  rw [if_neg hne]
  by_cases hf : esperados.filter (fun h => !(headers.contains h)) = []
  · rw [if_pos hf, hf]
    simp
  · rw [if_neg hf]
    have : (esperados.filter (fun h => !(headers.contains h))).isEmpty = false :=
      List.isEmpty_eq_false.mpr hf
    rw [this]
    rfl

theorem asegurar_of_superset (headers esperados : List String) (hne : headers ≠ [])
    (hsub : ∀ x ∈ esperados, x ∈ headers) :
    asegurarEncabezados headers esperados = (headers, false) := by
  have hf : esperados.filter (fun h => !(headers.contains h)) = [] := by
    rw [List.filter_eq_nil_iff]
    intro a ha
    simp only [Bool.not_eq_true', Bool.not_eq_false]
    exact contains_mem_iff.mpr (hsub a ha)
  unfold asegurarEncabezados
  rw [if_neg hne, if_pos hf]

theorem asegurar_mem (headers esperados : List String) (x : String)
    (hx : x ∈ esperados) : x ∈ (asegurarEncabezados headers esperados).1 := by
  unfold asegurarEncabezados
  by_cases hne : headers = []
  · rw [if_pos hne]
    exact hx
  · rw [if_neg hne]
    by_cases hmem : x ∈ headers
    · by_cases hf : esperados.filter (fun h => !(headers.contains h)) = []
      · rw [if_pos hf]; exact hmem
      · rw [if_neg hf]
        exact List.mem_append.mpr (Or.inl hmem)
    · have hx2 : x ∈ esperados.filter (fun h => !(headers.contains h)) := by
        rw [List.mem_filter]
        refine ⟨hx, ?_⟩
        simp only [Bool.not_eq_true']
        exact (Bool.not_eq_true _).mp (fun hc => hmem (contains_mem_iff.mp hc))
      have hf : esperados.filter (fun h => !(headers.contains h)) ≠ [] := by
        intro h0; rw [h0] at hx2; exact (List.not_mem_nil x) hx2
      rw [if_neg hf]
      exact List.mem_append.mpr (Or.inr hx2)

theorem asegurar_ne_nil (headers esperados : List String) (he : esperados ≠ []) :
    (asegurarEncabezados headers esperados).1 ≠ [] := by
  unfold asegurarEncabezados
  by_cases hne : headers = []
  · rw [if_pos hne]
    exact he
  · rw [if_neg hne]
    by_cases hf : esperados.filter (fun h => !(headers.contains h)) = []
    · rw [if_pos hf]; exact hne
    · rw [if_neg hf]
      simp [hne]

theorem findTab_setTab_self (ss : Libro) (n : String) (sh : Hoja) :
    findTab (setTab ss n sh) n = some sh := by
  induction ss with
  | nil => simp [setTab, findTab]
  | cons p rest ih =>
    by_cases hk : p.1 = n
    · simp [setTab, findTab, hk]
    · simp [setTab, findTab, hk, ih]

theorem findTab_setTab_other (ss : Libro) (n n2 : String) (sh : Hoja)
    (h : n2 ≠ n) : findTab (setTab ss n sh) n2 = findTab ss n2 := by
  have hn : ¬ n = n2 := fun he => h he.symm
  induction ss with
  | nil => simp [setTab, findTab, hn]
  | cons p rest ih =>
    by_cases hk : p.1 = n
    · simp [setTab, findTab, hk, hn]
    · by_cases hk2 : p.1 = n2
      · simp [setTab, findTab, hk, hk2, h]
      · simp [setTab, findTab, hk, hk2, ih]

theorem setTab_setTab (ss : Libro) (n : String) (a b : Hoja) :
    setTab (setTab ss n a) n b = setTab ss n b := by
  induction ss with
  | nil => simp [setTab]
  | cons p rest ih =>
    by_cases hk : p.1 = n
    · simp [setTab, hk]
    · simp [setTab, hk, ih]

theorem ids_mem_iff (headers : List String) (rows : List (List Celda)) (v : String) :
    v ∈ idsExistentes headers rows ↔
      ∃ idx, findHeaderIdx headers idAliases = some idx ∧
        ∃ row ∈ rows, pyStrip (cellStr (row.getD idx none)) = v ∧ v ≠ "" := by
  cases h : findHeaderIdx headers idAliases with
  | none => simp [idsExistentes, h]
  | some idx =>
    simp only [idsExistentes, h, colValues, List.mem_filter, List.mem_map,
      decide_eq_true_eq]
    constructor
    · rintro ⟨⟨s, ⟨row, hrow, hs⟩, hv⟩, hne⟩
      refine ⟨idx, rfl, row, hrow, ?_, hne⟩
      rw [hs]
      exact hv
    · rintro ⟨idx2, hidx2, row, hrow, hv, hne⟩
      injection hidx2 with hq
      subst hq
      exact ⟨⟨cellStr (row.getD idx none), ⟨row, hrow, rfl⟩, hv⟩, hne⟩

theorem getD_mem_of_lt (l : List α) (i : Nat) (d : α) (h : i < l.length) :
    l.getD i d ∈ l := by
  rw [List.getD_eq_getElem?_getD, List.getElem?_eq_getElem h]
  exact List.getElem_mem h

theorem mem_survivorLabels (rs : List Registro) (ids : List String) (i : Nat) :
    i ∈ survivorLabels rs ids ↔
      i < rs.length ∧
        keepRecord ids (columnExists rs "id") (rs.getD i []) = true := by
  unfold survivorLabels
  rw [List.mem_filter, List.mem_range]

theorem survivorLabels_none_kept (rs : List Registro) (ids : List String)
    (hall : ∀ r ∈ rs, keepRecord ids (columnExists rs "id") r = false) :
    survivorLabels rs ids = [] := by
  unfold survivorLabels
  rw [List.filter_eq_nil_iff]
  intro i hi
  rw [List.mem_range] at hi
  rw [hall (rs.getD i []) (getD_mem_of_lt rs i [] hi)]
  exact Bool.false_ne_true

theorem survivorLabels_all_kept (rs : List Registro) (ids : List String)
    (hall : ∀ i, i < rs.length →
      keepRecord ids (columnExists rs "id") (rs.getD i []) = true) :
    survivorLabels rs ids = List.range rs.length := by
  unfold survivorLabels
  rw [List.filter_eq_self]
  intro i hi
  exact hall i (List.mem_range.mp hi)

theorem guardar_run (rs : List Registro) (fecha : String) (ss : Libro)
    (y m d : Nat) (hne : rs ≠ []) (hd : parseYMD fecha = some (y, m, d)) :
    guardarEnHoja rs fecha ss = guardarAux rs (pyCapitalize (monthName m)) ss := by
  unfold guardarEnHoja
  rw [List.isEmpty_eq_false.mpr hne, hd]
  rfl

theorem guardarAux_sinNuevas (rs : List Registro) (mes : String) (ss : Libro)
    (hlab : survivorLabels rs (idsGuardados ss mes) = []) :
    guardarAux rs mes ss =
      (Resultado.sinNuevas,
       setTab ss mes
         { header := reconHeaders ss mes, rows := (tabDe ss mes).rows }) := by
  unfold guardarAux
  rw [hlab]
  rfl

theorem guardarAux_guardadas (rs : List Registro) (mes : String) (ss : Libro)
    (hlab : survivorLabels rs (idsGuardados ss mes) ≠ [])
    (hfields : rs.all (fun r => r.isEmpty) = false) :
    guardarAux rs mes ss =
      (Resultado.guardadas (survivorLabels rs (idsGuardados ss mes)).length,
       setTab ss mes
         { header := reconHeaders ss mes,
           rows := (tabDe ss mes).rows ++
             nuevasFilas rs (survivorLabels rs (idsGuardados ss mes))
               (ultimoDe ss mes) }) := by
  unfold guardarAux
  rw [List.isEmpty_eq_false.mpr hlab, hfields]
  rfl

theorem guardarAux_setTab (rs : List Registro) (mes : String) (ss : Libro) :
    ∃ sh, (guardarAux rs mes ss).2 = setTab ss mes sh := by
  unfold guardarAux
  by_cases hc : ((survivorLabels rs (idsGuardados ss mes)).isEmpty
      || rs.all (fun r => r.isEmpty)) = true
  · rw [if_pos hc]
    exact ⟨_, rfl⟩
  · rw [if_neg hc]
    exact ⟨_, rfl⟩

theorem two_le_length_of_mem {l : List Nat} {i j : Nat} (hi : i ∈ l)
    (hj : j ∈ l) (hij : i ≠ j) : 2 ≤ l.length := by
  match l with
  | [] => exact absurd hi (List.not_mem_nil i)
  | [x] =>
    rw [List.mem_singleton] at hi hj
    exact absurd (hi.trans hj.symm) hij
  | x :: y :: rest => simp [List.length]

theorem keepRecord_true (ids : List String) (r : Registro) (v : String)
    (hv : getField? r "id" = some v) (h : ids.contains v = false) :
    keepRecord ids true r = true := by
  rw [keepRecord, if_pos rfl, hv]
  show (!ids.contains v) = true
  rw [h]
  rfl

theorem keepRecord_false (ids : List String) (r : Registro) (v : String)
    (hv : getField? r "id" = some v) (h : ids.contains v = true) :
    keepRecord ids true r = false := by
  rw [keepRecord, if_pos rfl, hv]
  show (!ids.contains v) = false
  rw [h]
  rfl

theorem tabDe_setTab_self (ss : Libro) (n : String) (sh : Hoja) :
    tabDe (setTab ss n sh) n = sh := by
  unfold tabDe
  rw [findTab_setTab_self]
  rfl

theorem getD_eq_of_lt (l : List α) (i : Nat) (d : α) (h : i < l.length) :
    l.getD i d = l[i] := by
  rw [List.getD_eq_getElem?_getD, List.getElem?_eq_getElem h]
  rfl

/-- The identifier cell of a built row sits at canonical position 3. -/
theorem buildRow_id_cell (rs : List Registro) (labels : List Nat)
    (ultimo i : Nat) :
    (buildRowSheets rs labels ultimo i).getD 3 none = alignedCell rs labels "id" i :=
  rfl

/-! ## Claims -/

/-- C1 (counterexample): the idempotence claim fails as stated.  The single
record with identifier `"A1 "` (trailing space) is appended twice, with the
same date, starting from the empty spreadsheet; the second run appends the
record again — the outcome is a save of one more row, not the no-op outcome,
and the final state differs from the state after one run — because the
recovered identifier set holds the trimmed value `"A1"`, which the verbatim
incoming value `"A1 "` does not match. -/
theorem idempotencia_contraejemplo :
    (guardarEnHoja [[("id", "A1 ")]] "2024-08-15"
        (guardarEnHoja [[("id", "A1 ")]] "2024-08-15" []).2).1 =
      Resultado.guardadas 1 ∧
    (guardarEnHoja [[("id", "A1 ")]] "2024-08-15"
        (guardarEnHoja [[("id", "A1 ")]] "2024-08-15" []).2).2 ≠
      (guardarEnHoja [[("id", "A1 ")]] "2024-08-15" []).2 := by
  decide

/-- C1 (amended): running the append twice with the same records and target
date yields the same final stored state as running it once, with the second
run finding every record's identifier in the recovered identifier set,
filtering all records out and ending as the no-op outcome with nothing
appended — provided the date is parsable, every record carries an identifier
that is trim-invariant, non-empty and not already stored, and the reconciled
header locates the identifier column at its canonical position (index 3,
where the appended rows place the identifier). -/
theorem idempotencia_enmendada (rs : List Registro) (fecha : String) (ss : Libro)
    (y m d : Nat) (hne : rs ≠ [])
    (hd : parseYMD fecha = some (y, m, d))
    (hidcol : findHeaderIdx (reconHeaders ss (pyCapitalize (monthName m))) idAliases
        = some 3)
    (hids : ∀ r ∈ rs, ∃ v, getField? r "id" = some v ∧ pyStrip v = v ∧ v ≠ "" ∧
      (idsGuardados ss (pyCapitalize (monthName m))).contains v = false) :
    ∃ ss1,
      guardarEnHoja rs fecha ss = (Resultado.guardadas rs.length, ss1) ∧
      guardarEnHoja rs fecha ss1 = (Resultado.sinNuevas, ss1) ∧
      ∀ r ∈ rs, ∀ v, getField? r "id" = some v →
        (idsGuardados ss1 (pyCapitalize (monthName m))).contains v = true := by
  have hdedup : columnExists rs "id" = true := by
    obtain ⟨r0, hr0⟩ := List.exists_mem_of_ne_nil rs hne
    obtain ⟨v0, hv0, _, _, _⟩ := hids r0 hr0
    unfold columnExists
    rw [List.any_eq_true]
    refine ⟨r0, hr0, ?_⟩
    rw [hv0]
    rfl
  have hkeep : ∀ i, i < rs.length →
      keepRecord (idsGuardados ss (pyCapitalize (monthName m)))
        (columnExists rs "id") (rs.getD i []) = true := by
    intro i hi
    obtain ⟨v, hv, _, _, hnotin⟩ := hids (rs.getD i []) (getD_mem_of_lt rs i [] hi)
    rw [hdedup]
    exact keepRecord_true _ _ v hv hnotin
  have hlabels : survivorLabels rs (idsGuardados ss (pyCapitalize (monthName m)))
      = List.range rs.length :=
    survivorLabels_all_kept rs _ hkeep
  have hlen : (survivorLabels rs
      (idsGuardados ss (pyCapitalize (monthName m)))).length = rs.length := by
    rw [hlabels, List.length_range]
  have hlabne : survivorLabels rs (idsGuardados ss (pyCapitalize (monthName m)))
      ≠ [] := by
    rw [hlabels]
    intro h0
    rw [List.range_eq_nil] at h0
    exact hne (List.length_eq_zero.mp h0)
  have hfields : rs.all (fun r => r.isEmpty) = false := by
    obtain ⟨r0, hr0⟩ := List.exists_mem_of_ne_nil rs hne
    obtain ⟨v0, hv0, _, _, _⟩ := hids r0 hr0
    rw [List.all_eq_false]
    refine ⟨r0, hr0, ?_⟩
    intro hemp
    rw [List.isEmpty_iff] at hemp
    rw [hemp] at hv0
    exact absurd hv0 (by simp [getField?])
  obtain ⟨X, hX⟩ : ∃ X : Hoja, X =
      { header := reconHeaders ss (pyCapitalize (monthName m)),
        rows := (tabDe ss (pyCapitalize (monthName m))).rows ++
          nuevasFilas rs
            (survivorLabels rs (idsGuardados ss (pyCapitalize (monthName m))))
            (ultimoDe ss (pyCapitalize (monthName m))) } := ⟨_, rfl⟩
  have hXh : X.header = reconHeaders ss (pyCapitalize (monthName m)) := by
    rw [hX]
  have hXr : X.rows = (tabDe ss (pyCapitalize (monthName m))).rows ++
      nuevasFilas rs
        (survivorLabels rs (idsGuardados ss (pyCapitalize (monthName m))))
        (ultimoDe ss (pyCapitalize (monthName m))) := by
    rw [hX]
  have hrun1 : guardarEnHoja rs fecha ss =
      (Resultado.guardadas rs.length,
       setTab ss (pyCapitalize (monthName m)) X) := by
    rw [guardar_run rs fecha ss y m d hne hd,
        guardarAux_guardadas rs _ ss hlabne hfields, hlen, ← hX]
  have hheadne : reconHeaders ss (pyCapitalize (monthName m)) ≠ [] :=
    asegurar_ne_nil _ _ (by decide)
  have hsup : ∀ x ∈ columnasOrdenadas,
      x ∈ reconHeaders ss (pyCapitalize (monthName m)) :=
    fun x hx => asegurar_mem _ _ x hx
  have hrecon1 : reconHeaders (setTab ss (pyCapitalize (monthName m)) X)
      (pyCapitalize (monthName m)) = reconHeaders ss (pyCapitalize (monthName m)) := by
    show (asegurarEncabezados
      (tabDe (setTab ss (pyCapitalize (monthName m)) X)
        (pyCapitalize (monthName m))).header columnasOrdenadas).1 = _
    rw [tabDe_setTab_self, hXh, asegurar_of_superset _ _ hheadne hsup]
  have hids1 : ∀ r ∈ rs, ∀ v, getField? r "id" = some v →
      (idsGuardados (setTab ss (pyCapitalize (monthName m)) X)
        (pyCapitalize (monthName m))).contains v = true := by
    intro r hr v hv
    obtain ⟨v2, hv2, hstrip, hne2, _⟩ := hids r hr
    rw [hv] at hv2
    injection hv2 with hv2
    subst hv2
    obtain ⟨i, hi, hri⟩ := List.getElem_of_mem hr
    have hgetD : rs.getD i [] = r := by
      rw [getD_eq_of_lt rs i [] hi]
      exact hri
    have hcont : (survivorLabels rs
        (idsGuardados ss (pyCapitalize (monthName m)))).contains i = true := by
      rw [hlabels]
      exact contains_mem_iff.mpr (List.mem_range.mpr hi)
    have halign : alignedCell rs
        (survivorLabels rs (idsGuardados ss (pyCapitalize (monthName m)))) "id" i
        = some v := by
      unfold alignedCell
      rw [hdedup, if_pos rfl, hcont, if_pos rfl, hgetD, hv]
    unfold idsGuardados
    rw [hrecon1, tabDe_setTab_self, contains_mem_iff, ids_mem_iff]
    refine ⟨3, hidcol, ?_⟩
    refine ⟨buildRowSheets rs
      (survivorLabels rs (idsGuardados ss (pyCapitalize (monthName m))))
      (ultimoDe ss (pyCapitalize (monthName m))) i, ?_, ?_, hne2⟩
    · rw [hXr]
      refine List.mem_append.mpr (Or.inr ?_)
      unfold nuevasFilas
      exact List.mem_map.mpr ⟨i, List.mem_range.mpr (by rw [hlen]; exact hi), rfl⟩
    · rw [buildRow_id_cell, halign]
      exact hstrip
  have hkeep2 : ∀ r ∈ rs,
      keepRecord (idsGuardados (setTab ss (pyCapitalize (monthName m)) X)
          (pyCapitalize (monthName m)))
        (columnExists rs "id") r = false := by
    intro r hr
    obtain ⟨v, hv, _, _, _⟩ := hids r hr
    rw [hdedup]
    exact keepRecord_false _ _ v hv (hids1 r hr v hv)
  have hrun2 : guardarEnHoja rs fecha (setTab ss (pyCapitalize (monthName m)) X) =
      (Resultado.sinNuevas, setTab ss (pyCapitalize (monthName m)) X) := by
    rw [guardar_run rs fecha _ y m d hne hd,
        guardarAux_sinNuevas rs _ _ (survivorLabels_none_kept rs _ hkeep2),
        hrecon1, tabDe_setTab_self, setTab_setTab]
    rw [← hXh]
  exact ⟨setTab ss (pyCapitalize (monthName m)) X, hrun1, hrun2, hids1⟩

/-- Witness for C1 (amended): two fresh, clean-identifier records on the
empty spreadsheet; the first run saves both, the second run is the no-op and
leaves the state unchanged. -/
theorem idempotencia_enmendada_witness :
    (([[("id", "A1")], [("id", "A2")]] : List Registro) ≠ []) ∧
    parseYMD "2024-08-15" = some (2024, 8, 15) ∧
    findHeaderIdx (reconHeaders [] "August") idAliases = some 3 ∧
    (∃ ss1,
      guardarEnHoja [[("id", "A1")], [("id", "A2")]] "2024-08-15" [] =
        (Resultado.guardadas 2, ss1) ∧
      guardarEnHoja [[("id", "A1")], [("id", "A2")]] "2024-08-15" ss1 =
        (Resultado.sinNuevas, ss1) ∧
      ∀ r ∈ ([[("id", "A1")], [("id", "A2")]] : List Registro), ∀ v,
        getField? r "id" = some v →
          (idsGuardados ss1 "August").contains v = true) := by
  refine ⟨by decide, by decide, by decide, ?_⟩
  exact idempotencia_enmendada [[("id", "A1")], [("id", "A2")]] "2024-08-15" []
    2024 8 15 (by decide) (by decide) (by decide)
    (by
      intro r hr
      rw [List.mem_cons, List.mem_singleton] at hr
      rcases hr with hr | hr <;> subst hr
      · exact ⟨"A1", by decide, by decide, by decide, by decide⟩
      · exact ⟨"A2", by decide, by decide, by decide, by decide⟩)

/-- C2: the recovered last sequence number equals the maximum over the cells
of the sequence column of the value obtained by stripping non-digit
characters and parsing the remaining digit run, ignoring malformed cells and
non-positive values, and it is 0 when no alias matches a header or when no
cell yields a valid positive value (`specUltimo` transcribes the spec's
wording, including the 0 defaults; `ultimoNumero` is the code). -/
theorem ultimo_numero_correcto (headers : List String) (rows : List (List Celda)) :
    ultimoNumero headers rows = specUltimo headers rows := by
  unfold ultimoNumero specUltimo
  cases findHeaderIdx headers numeroAliases with
  | none => rfl
  | some idx =>
    simp only [pyMax_eq_foldr]
    congr 1
    exact List.filterMap_congr (fun v _ => parseSeq_eq_spec v)

/-- C4: for a non-empty existing header, schema reconciliation returns the
existing header extended at the end with exactly those canonical names not
already present under exact case-sensitive string comparison, preserving the
existing names and their positions, and the write-back flag is set iff at
least one canonical name was missing; in particular a header already
containing every canonical name (in any order, with any extra columns) is
returned unchanged with no write. -/
theorem encabezados_reconciliados (headers : List String) (hne : headers ≠ []) :
    asegurarEncabezados headers columnasOrdenadas =
      (headers ++ columnasOrdenadas.filter (fun h => !(headers.contains h)),
       !(columnasOrdenadas.filter (fun h => !(headers.contains h))).isEmpty) ∧
    ((∀ x ∈ columnasOrdenadas, x ∈ headers) →
      asegurarEncabezados headers columnasOrdenadas = (headers, false)) :=
  ⟨asegurar_formula headers columnasOrdenadas hne,
   fun hsub => asegurar_of_superset headers columnasOrdenadas hne hsub⟩

/-- Witness for C4 at a concrete header: the canonical columns in reverse
order plus an extra column are all present, so reconciliation changes
nothing and performs no write. -/
theorem encabezados_reconciliados_witness :
    (columnasOrdenadas.reverse ++ ["Extra"] ≠ []) ∧
    asegurarEncabezados (columnasOrdenadas.reverse ++ ["Extra"]) columnasOrdenadas
      = (columnasOrdenadas.reverse ++ ["Extra"], false) :=
  ⟨by decide,
   (encabezados_reconciliados (columnasOrdenadas.reverse ++ ["Extra"])
      (by decide)).2 (by decide)⟩

/-- C5: a record carrying an identifier field is dropped by the dedup filter
iff its identifier value equals, by exact case- and whitespace-sensitive
string comparison, the trimmed value of some non-empty identifier-column cell
already stored in the partition; the stored-identifier set is exactly the
trimmed, non-empty cells of the identifier column. -/
theorem dedup_por_id (rs : List Registro) (r : Registro) (hr : r ∈ rs)
    (v : String) (hv : getField? r "id" = some v)
    (headers : List String) (rows : List (List Celda)) :
    keepRecord (idsExistentes headers rows) (columnExists rs "id") r = false ↔
      ∃ idx, findHeaderIdx headers idAliases = some idx ∧
        ∃ row ∈ rows, pyStrip (cellStr (row.getD idx none)) = v ∧ v ≠ "" := by
  have hdedup : columnExists rs "id" = true := by
    unfold columnExists
    rw [List.any_eq_true]
    refine ⟨r, hr, ?_⟩
    rw [hv]
    rfl
  rw [keepRecord, hdedup, if_pos rfl, hv]
  rw [Bool.not_eq_false']
  rw [contains_mem_iff]
  exact ids_mem_iff headers rows v

/-- Witness for C5: the single incoming record with identifier `A1` is
dropped against a partition whose identifier column stores `" A1 "` (trimmed
to `A1` on recovery). -/
theorem dedup_por_id_witness :
    ([("id", "A1")] ∈ [[("id", "A1")]]) ∧
    getField? [("id", "A1")] "id" = some "A1" ∧
    keepRecord
      (idsExistentes columnasOrdenadas [[some "0", some "", some "", some " A1 "]])
      (columnExists [[("id", "A1")]] "id") [("id", "A1")] = false :=
  ⟨by decide, by decide,
   (dedup_por_id [[("id", "A1")]] [("id", "A1")] (by decide) "A1" (by decide)
      columnasOrdenadas [[some "0", some "", some "", some " A1 "]]).mpr
     ⟨3, by decide, [some "0", some "", some "", some " A1 "], by decide,
      by decide, by decide⟩⟩

/-- C3: every successful append stores exactly the surviving records' rows,
appended after the existing rows, and the assigned sequence numbers are
exactly `last+1, last+2, ..., last+k` where `last` is the recovered previous
maximum and `k` the number of survivors: row `i` of the appended batch (the
batch keeps the survivors' original relative order, nothing is re-sorted)
carries sequence number `last + 1 + i`. -/
theorem numeracion_consecutiva (rs : List Registro) (fecha : String)
    (ss : Libro) (y m d : Nat) (hd : parseYMD fecha = some (y, m, d))
    (k : Nat) (ss2 : Libro)
    (hrun : guardarEnHoja rs fecha ss = (Resultado.guardadas k, ss2)) :
    k = (survivorLabels rs (idsGuardados ss (pyCapitalize (monthName m)))).length ∧
    findTab ss2 (pyCapitalize (monthName m)) = some
      { header := reconHeaders ss (pyCapitalize (monthName m)),
        rows := (tabDe ss (pyCapitalize (monthName m))).rows ++
          nuevasFilas rs
            (survivorLabels rs (idsGuardados ss (pyCapitalize (monthName m))))
            (ultimoDe ss (pyCapitalize (monthName m))) } ∧
    numerosAsignados
        (nuevasFilas rs
          (survivorLabels rs (idsGuardados ss (pyCapitalize (monthName m))))
          (ultimoDe ss (pyCapitalize (monthName m)))) =
      (List.range k).map
        (fun i => some (toString (ultimoDe ss (pyCapitalize (monthName m)) + 1 + i))) := by
  have hne : rs ≠ [] := by
    intro h0
    subst h0
    have h0run : guardarEnHoja [] fecha ss = (Resultado.nada, ss) := rfl
    rw [h0run] at hrun
    exact absurd (congrArg Prod.fst hrun) (by simp)
  rw [guardar_run rs fecha ss y m d hne hd] at hrun
  unfold guardarAux at hrun
  by_cases hc : ((survivorLabels rs
      (idsGuardados ss (pyCapitalize (monthName m)))).isEmpty
      || rs.all (fun r => r.isEmpty)) = true
  · rw [if_pos hc] at hrun
    exact absurd (congrArg Prod.fst hrun) (by simp)
  · rw [if_neg hc] at hrun
    rw [Prod.mk.injEq] at hrun
    obtain ⟨hk, hss2⟩ := hrun
    injection hk with hk
    refine ⟨hk.symm, ?_, ?_⟩
    · rw [← hss2]
      exact findTab_setTab_self ss (pyCapitalize (monthName m)) _
    · rw [← hk]
      unfold numerosAsignados nuevasFilas
      rw [List.map_map]
      exact List.map_congr_left (fun i _ => rfl)

/-- Witness for C3 (the spec's first scenario): two fresh records on an empty
spreadsheet for `2024-08-15` create the `August` tab and are appended with
sequence numbers 1 and 2. -/
theorem numeracion_consecutiva_witness :
    parseYMD "2024-08-15" = some (2024, 8, 15) ∧
    guardarEnHoja [[("id", "A1")], [("id", "A2")]] "2024-08-15" [] =
      (Resultado.guardadas 2,
       [("August",
         { header := columnasOrdenadas,
           rows := [[some "1", some "", some "", some "A1", some "", some "",
                     some "", some "", some "", some "", some "", some "", some ""],
                    [some "2", some "", some "", some "A2", some "", some "",
                     some "", some "", some "", some "", some "", some "", some ""]] })]) ∧
    numerosAsignados
        (nuevasFilas [[("id", "A1")], [("id", "A2")]]
          (survivorLabels [[("id", "A1")], [("id", "A2")]] (idsGuardados [] "August"))
          (ultimoDe [] "August")) =
      (List.range 2).map (fun i => some (toString (ultimoDe [] "August" + 1 + i))) := by
  refine ⟨by decide, by decide, ?_⟩
  exact (numeracion_consecutiva [[("id", "A1")], [("id", "A2")]] "2024-08-15" []
    2024 8 15 (by decide) 2
    [("August",
      { header := columnasOrdenadas,
        rows := [[some "1", some "", some "", some "A1", some "", some "",
                  some "", some "", some "", some "", some "", some "", some ""],
                 [some "2", some "", some "", some "A2", some "", some "",
                  some "", some "", some "", some "", some "", some "", some ""]] })]
    (by decide)).2.2

/-- C6 (failing evaluation): with identifier `A1` already stored at sequence
number 5, the batch `[{id: A1, titulo: X}, {id: A2, titulo: Y}]` should
append one row carrying A2's field values (`ID = A2`, `Título = Y`).
Instead, `sheets.py` builds `df_out` as a fresh DataFrame whose index is
reset by the first column assignment, while the filtered `df` kept its
original index label 1; the subsequent column assignments
`df_out[col] = df.get(field, "")` realign by index label, so the single
appended row receives the (dropped) label-0 slot: NaN in the identifier and
title cells rather than `A2` and `Y`.  The sequence number (6) and the row
count (1) are unaffected because they are assigned positionally.  (The
`scraping.py` copy assigns the columns onto the filtered frame itself and
maps the surviving record's fields correctly.) -/
theorem mapeo_campos_desalineado :
    getField? [("id", "A2"), ("titulo", "Y")] "id" = some "A2" ∧
    getField? [("id", "A2"), ("titulo", "Y")] "titulo" = some "Y" ∧
    (guardarEnHoja
        [[("id", "A1"), ("titulo", "X")], [("id", "A2"), ("titulo", "Y")]]
        "2024-08-15"
        [("August",
          { header := columnasOrdenadas,
            rows := [[some "5", some "", some "", some "A1", some "", some "",
                      some "", some "", some "", some "", some "", some "",
                      some ""]] })]).1
      = Resultado.guardadas 1 ∧
    (findTab (guardarEnHoja
        [[("id", "A1"), ("titulo", "X")], [("id", "A2"), ("titulo", "Y")]]
        "2024-08-15"
        [("August",
          { header := columnasOrdenadas,
            rows := [[some "5", some "", some "", some "A1", some "", some "",
                      some "", some "", some "", some "", some "", some "",
                      some ""]] })]).2
        "August").map
      (fun h => h.rows.map (fun r => (r.getD 0 none, r.getD 3 none, r.getD 4 none)))
      = some [(some "5", some "A1", some ""), (some "6", none, none)] := by
  decide

/-- C7: when every incoming record is dropped by the dedup filter, the
invocation terminates with the distinct no-op outcome `sinNuevas` (not an
error outcome) and no row is appended to the partition: the month tab keeps
exactly its previous data rows (only the header reconciliation may have
written the header). -/
theorem todos_filtrados_sin_nuevas (rs : List Registro) (fecha : String)
    (ss : Libro) (y m d : Nat) (hne : rs ≠ [])
    (hd : parseYMD fecha = some (y, m, d))
    (hall : ∀ r ∈ rs,
      keepRecord (idsGuardados ss (pyCapitalize (monthName m)))
        (columnExists rs "id") r = false) :
    guardarEnHoja rs fecha ss =
      (Resultado.sinNuevas,
       setTab ss (pyCapitalize (monthName m))
         { header := reconHeaders ss (pyCapitalize (monthName m)),
           rows := (tabDe ss (pyCapitalize (monthName m))).rows }) := by
  rw [guardar_run rs fecha ss y m d hne hd]
  exact guardarAux_sinNuevas rs (pyCapitalize (monthName m)) ss
    (survivorLabels_none_kept rs (idsGuardados ss (pyCapitalize (monthName m))) hall)

/-- Witness for C7: the partition already stores identifier `A1`; the single
incoming record with identifier `A1` is filtered out and the run is a no-op
that leaves the stored rows unchanged. -/
theorem todos_filtrados_sin_nuevas_witness :
    ([[("id", "A1")]] : List Registro) ≠ [] ∧
    parseYMD "2024-08-15" = some (2024, 8, 15) ∧
    guardarEnHoja [[("id", "A1")]] "2024-08-15"
        [("August", { header := columnasOrdenadas,
                      rows := [[some "1", some "", some "", some "A1"]] })] =
      (Resultado.sinNuevas,
       [("August", { header := columnasOrdenadas,
                     rows := [[some "1", some "", some "", some "A1"]] })]) := by
  refine ⟨by decide, by decide, ?_⟩
  have h := todos_filtrados_sin_nuevas [[("id", "A1")]] "2024-08-15"
    [("August", { header := columnasOrdenadas,
                  rows := [[some "1", some "", some "", some "A1"]] })]
    2024 8 15 (by decide) (by decide) (by decide)
  rw [h]
  decide

/-- C8: with a non-empty record list, an unparsable target date makes the
operation fail with the invalid-date outcome before any backend interaction
(the spreadsheet is returned untouched); for a parsable date the partition
name resolves, purely, to the capitalized month name, and no tab other than
that month's is ever modified. -/
theorem fecha_invalida_aborta (rs : List Registro) (fecha : String) (ss : Libro) :
    (rs ≠ [] → parseYMD fecha = none →
      guardarEnHoja rs fecha ss = (Resultado.fechaInvalida, ss)) ∧
    (∀ y m d, parseYMD fecha = some (y, m, d) →
      mesDe fecha = some (pyCapitalize (monthName m)) ∧
      ∀ name, name ≠ pyCapitalize (monthName m) →
        findTab (guardarEnHoja rs fecha ss).2 name = findTab ss name) := by
  constructor
  · intro hne hd
    unfold guardarEnHoja
    rw [List.isEmpty_eq_false.mpr hne, hd]
    rfl
  · intro y m d hd
    constructor
    · rw [mesDe, hd]
      rfl
    · intro name hname
      by_cases hne : rs = []
      · subst hne
        rfl
      · rw [guardar_run rs fecha ss y m d hne hd]
        obtain ⟨sh, hsh⟩ := guardarAux_setTab rs (pyCapitalize (monthName m)) ss
        rw [hsh]
        exact findTab_setTab_other ss (pyCapitalize (monthName m)) name sh hname

/-- Witness for C8: `2024-13-05` has no thirteenth month and aborts with the
invalid-date outcome leaving the spreadsheet untouched; for `2024-08-15` the
partition name resolves to `August` and the `July` tab is untouched. -/
theorem fecha_invalida_aborta_witness :
    (([[("id", "X")]] : List Registro) ≠ []) ∧
    parseYMD "2024-13-05" = none ∧
    guardarEnHoja [[("id", "X")]] "2024-13-05" [] = (Resultado.fechaInvalida, []) ∧
    parseYMD "2024-08-15" = some (2024, 8, 15) ∧
    mesDe "2024-08-15" = some "August" ∧
    findTab (guardarEnHoja [[("id", "X")]] "2024-08-15" []).2 "July" = none := by
  refine ⟨by decide, by decide,
    (fecha_invalida_aborta [[("id", "X")]] "2024-13-05" []).1 (by decide) (by decide),
    by decide, ?_, ?_⟩
  · exact ((fecha_invalida_aborta [[("id", "X")]] "2024-08-15" []).2 2024 8 15
      (by decide)).1
  · have h := ((fecha_invalida_aborta [[("id", "X")]] "2024-08-15" []).2 2024 8 15
      (by decide)).2 "July" (by decide)
    rw [h]
    rfl

/-- C10: deduplication compares incoming identifiers only against the stored
identifiers, never within the incoming batch itself: two records of the same
batch sharing an identifier that is not yet stored both survive the filter,
the run appends one row per survivor, and the sequence numbers assigned to
the appended rows are pairwise distinct — so a single run can store the same
identifier twice. -/
theorem duplicados_en_lote (rs : List Registro) (fecha : String) (ss : Libro)
    (y m d i j : Nat) (v : String)
    (hd : parseYMD fecha = some (y, m, d)) (hij : i ≠ j)
    (hi : i < rs.length) (hj : j < rs.length)
    (hvi : getField? (rs.getD i []) "id" = some v)
    (hvj : getField? (rs.getD j []) "id" = some v)
    (hnot : (idsGuardados ss (pyCapitalize (monthName m))).contains v = false) :
    i ∈ survivorLabels rs (idsGuardados ss (pyCapitalize (monthName m))) ∧
    j ∈ survivorLabels rs (idsGuardados ss (pyCapitalize (monthName m))) ∧
    2 ≤ (survivorLabels rs (idsGuardados ss (pyCapitalize (monthName m)))).length ∧
    guardarEnHoja rs fecha ss =
      (Resultado.guardadas
         (survivorLabels rs (idsGuardados ss (pyCapitalize (monthName m)))).length,
       setTab ss (pyCapitalize (monthName m))
         { header := reconHeaders ss (pyCapitalize (monthName m)),
           rows := (tabDe ss (pyCapitalize (monthName m))).rows ++
             nuevasFilas rs
               (survivorLabels rs (idsGuardados ss (pyCapitalize (monthName m))))
               (ultimoDe ss (pyCapitalize (monthName m))) }) ∧
    ((List.range
        (survivorLabels rs (idsGuardados ss (pyCapitalize (monthName m)))).length).map
      (fun a => ultimoDe ss (pyCapitalize (monthName m)) + 1 + a)).Nodup := by
  have hmemi : rs.getD i [] ∈ rs := getD_mem_of_lt rs i [] hi
  have hmemj : rs.getD j [] ∈ rs := getD_mem_of_lt rs j [] hj
  have hdedup : columnExists rs "id" = true := by
    unfold columnExists
    rw [List.any_eq_true]
    refine ⟨rs.getD i [], hmemi, ?_⟩
    rw [hvi]
    rfl
  have hkeep : ∀ a, getField? (rs.getD a []) "id" = some v →
      keepRecord (idsGuardados ss (pyCapitalize (monthName m)))
        (columnExists rs "id") (rs.getD a []) = true := by
    intro a hva
    rw [keepRecord, hdedup, if_pos rfl, hva]
    show (!(idsGuardados ss (pyCapitalize (monthName m))).contains v) = true
    rw [hnot]
    rfl
  have hmi : i ∈ survivorLabels rs (idsGuardados ss (pyCapitalize (monthName m))) :=
    (mem_survivorLabels rs _ i).mpr ⟨hi, hkeep i hvi⟩
  have hmj : j ∈ survivorLabels rs (idsGuardados ss (pyCapitalize (monthName m))) :=
    (mem_survivorLabels rs _ j).mpr ⟨hj, hkeep j hvj⟩
  have hlab : survivorLabels rs (idsGuardados ss (pyCapitalize (monthName m))) ≠ [] := by
    intro h0
    rw [h0] at hmi
    exact (List.not_mem_nil i) hmi
  have hfields : rs.all (fun r => r.isEmpty) = false := by
    rw [List.all_eq_false]
    refine ⟨rs.getD i [], hmemi, ?_⟩
    intro hemp
    rw [List.isEmpty_iff] at hemp
    rw [hemp] at hvi
    exact absurd hvi (by simp [getField?])
  have hne : rs ≠ [] := by
    intro h0
    rw [h0] at hi
    exact absurd hi (by simp)
  refine ⟨hmi, hmj, two_le_length_of_mem hmi hmj hij, ?_, ?_⟩
  · rw [guardar_run rs fecha ss y m d hne hd]
    exact guardarAux_guardadas rs (pyCapitalize (monthName m)) ss hlab hfields
  · exact List.Nodup.map (fun a b hab => by omega) (List.nodup_range _)

/-- Witness for C10: a batch with identifier `Z` twice on an empty
spreadsheet appends both records; the stored partition ends with `Z` in the
identifier column of both appended rows, numbered 1 and 2. -/
theorem duplicados_en_lote_witness :
    parseYMD "2024-08-15" = some (2024, 8, 15) ∧
    (idsGuardados [] "August").contains "Z" = false ∧
    (0 ∈ survivorLabels [[("id", "Z")], [("id", "Z")]] (idsGuardados [] "August") ∧
     1 ∈ survivorLabels [[("id", "Z")], [("id", "Z")]] (idsGuardados [] "August") ∧
     2 ≤ (survivorLabels [[("id", "Z")], [("id", "Z")]] (idsGuardados [] "August")).length) ∧
    (findTab (guardarEnHoja [[("id", "Z")], [("id", "Z")]] "2024-08-15" []).2
        "August").map (fun h => h.rows.map (fun r => (r.getD 0 none, r.getD 3 none))) =
      some [(some "1", some "Z"), (some "2", some "Z")] := by
  have h := duplicados_en_lote [[("id", "Z")], [("id", "Z")]] "2024-08-15" []
    2024 8 15 0 1 "Z" (by decide) (by decide) (by decide) (by decide)
    (by decide) (by decide) (by decide)
  exact ⟨by decide, by decide, ⟨h.1, h.2.1, h.2.2.1⟩, by decide⟩

/-- C9: an empty incoming record list returns the empty-input no-op outcome
immediately, for every target date string and every spreadsheet state: the
date is never parsed and the backend is never contacted, so an unparsable
date paired with an empty list does not produce the invalid-date outcome. -/
theorem lista_vacia_retorna_inmediato (fecha : String) (ss : Libro) :
    guardarEnHoja [] fecha ss = (Resultado.nada, ss) := rfl
